import Mathlib

/-!
Verification of the Sovereign RMM v2 agent and server core
(`src/agent/windows_agent.py`, `src/backend/main.py`) against its
natural-language specification.

The Python code is shallowly embedded as executable Lean definitions.
Wall-clock instants are modelled as natural numbers counting seconds from
a fixed epoch lying on a Monday midnight UTC, so that
`now / 86400 % 7` is the Python `datetime.weekday()` value (Monday = 0) and
`now % 86400` is the second of day.  The two `datetime.utcnow()` calls
made inside one evaluation of `task_is_due` are microseconds apart in the
source and are modelled as a single instant.  JSON (de)serialisation is
abstracted: a task record is a structure, the on-disk cache file either
holds a well-formed list of records, is corrupt, or is absent.
-/

/-- A scheduled-task record as stored in the local JSON cache of the agent and
carried by `schedule_task` / `run_task` messages
(`src/agent/windows_agent.py`).  Optional timestamps are parsed
`datetime` values, in epoch seconds. -/
structure RmmTask where
  task_id : String
  name : String
  trigger_type : String
  scheduled_at : Option Nat
  interval_seconds : Option Nat
  cron_expression : String
  event_trigger : String
  last_run : Option Nat
  cancelled : Bool
  script_type : String
  script_body : String
deriving DecidableEq, Repr

/-- Python `expr.strip().split()`: split on whitespace runs, dropping
empty fields. -/
def splitFields (s : String) : List String :=
  (s.trim.split Char.isWhitespace).filter (fun f => f ≠ "")

/-- The `while candidate.weekday() != target_wd: candidate += timedelta(days=1)`
loop of `cron_next_run`, with explicit fuel.  The caller guarantees
`wd ≤ 6`, in which case 7 days of fuel always suffice to hit the target
weekday. -/
def advanceToWeekday : Nat → Nat → Nat → Nat
  | 0, c, _ => c
  | fuel + 1, c, wd => if c / 86400 % 7 = wd then c else advanceToWeekday fuel (c + 86400) wd

/-- The `candidate` computation of `cron_next_run`:
`now.replace(minute=minute, hour=hour, second=0, microsecond=0)`,
plus one day when `candidate <= now`. -/
def cronCandidate (now hour minute : Nat) : Nat :=
  if now / 86400 * 86400 + hour * 3600 + minute * 60 ≤ now
  then now / 86400 * 86400 + hour * 3600 + minute * 60 + 86400
  else now / 86400 * 86400 + hour * 3600 + minute * 60

/-- Model of `cron_next_run` (windows_agent.py lines 323-337).  Parses
`minute hour * * weekday`, builds the candidate via `cronCandidate`, then
advances to the requested weekday.  Any parse failure, out-of-range
`replace` argument, or weekday outside 0..6 (whose search loop in Python
runs until `datetime` overflows and the bare `except` fires) yields
`none`. -/
def cron_next_run (expr : String) (now : Nat) : Option Nat :=
  if (splitFields expr).length < 5 then none
  else
    match ((splitFields expr).getD 0 "").toInt?, ((splitFields expr).getD 1 "").toInt? with
    | some minute, some hour =>
      if minute < 0 ∨ 60 ≤ minute ∨ hour < 0 ∨ 24 ≤ hour then none
      else
        if (splitFields expr).getD 4 "" ≠ "*" then
          match ((splitFields expr).getD 4 "").toInt? with
          | none => none
          | some wd =>
            if wd < 0 ∨ 6 < wd then none
            else some (advanceToWeekday 7 (cronCandidate now hour.toNat minute.toNat) wd.toNat)
        else some (cronCandidate now hour.toNat minute.toNat)
    | _, _ => none

/-- Model of `task_is_due` (windows_agent.py lines 339-361), with both
`datetime.utcnow()` reads modelled as the one instant `now`.  The
`interval` comparison is done over `Int` because Python compares a
possibly negative elapsed `total_seconds()` against the interval. -/
def taskIsDue (t : RmmTask) (now : Nat) : Bool :=
  if t.trigger_type = "now" then true
  else if t.trigger_type = "once" then
    match t.scheduled_at with
    | none => false
    | some s => decide (s ≤ now)
  else if t.trigger_type = "interval" then
    let interval := t.interval_seconds.getD 3600
    match t.last_run with
    | none => true
    | some l => decide ((interval : Int) ≤ (now : Int) - (l : Int))
  else if t.trigger_type = "cron" then
    match cron_next_run t.cron_expression now with
    | none => false
    | some nf =>
      decide (nf ≤ now) &&
        (match t.last_run with
         | none => true
         | some l => decide (l < nf))
  else false

/-- Advancing to a weekday never moves time backwards. -/
theorem advanceToWeekday_ge (fuel c wd : Nat) : c ≤ advanceToWeekday fuel c wd := by
  induction fuel generalizing c with
  | zero => exact Nat.le_refl c
  | succ n ih =>
    unfold advanceToWeekday
    split
    · exact Nat.le_refl c
    · exact Nat.le_trans (Nat.le_add_right c 86400) (ih (c + 86400))

/-- The push-a-day step makes the candidate strictly future. -/
theorem cronCandidate_gt (now hour minute : Nat) : now < cronCandidate now hour minute := by
  unfold cronCandidate
  split <;> omega

/-- Every fire time computed by `cron_next_run` lies strictly after `now`:
the `candidate <= now` branch pushes a whole day, so the function can
never return the current instant. -/
theorem cron_next_run_gt (expr : String) (now nf : Nat)
    (h : cron_next_run expr now = some nf) : now < nf := by
  unfold cron_next_run at h
  split at h
  · simp at h
  · split at h
    · next minute hour hm hh =>
      split at h
      · simp at h
      · split at h
        · split at h
          · simp at h
          · split at h
            · simp at h
            · next wd hwd hrange =>
              have h1 := advanceToWeekday_ge 7 (cronCandidate now hour.toNat minute.toNat) wd.toNat
              have h2 := cronCandidate_gt now hour.toNat minute.toNat
              have hnf := Option.some.inj h
              omega
        · have h2 := cronCandidate_gt now hour.toNat minute.toNat
          have hnf := Option.some.inj h
          omega
    · simp at h

/-- C1: for any task with `trigger_type="cron"` the due-predicate of the code is
constantly false: `cron_next_run` always returns an instant strictly after
`now`, so the conjunct `now ≥ next_fire` of `task_is_due` can never hold.
The claimed behaviour (fire when `now` reaches the next fire time computed
at-or-after `now`) is therefore unreachable: cron tasks never fire. -/
theorem cron_task_never_due (t : RmmTask) (now : Nat)
    (h : t.trigger_type = "cron") : taskIsDue t now = false := by
  unfold taskIsDue
  rw [h]
  simp only [if_neg (by decide : ¬("cron" = "now")),
    if_neg (by decide : ¬("cron" = "once")),
    if_neg (by decide : ¬("cron" = "interval")), if_pos rfl]
  cases hc : cron_next_run t.cron_expression now with
  | none => rfl
  | some nf =>
    have := cron_next_run_gt t.cron_expression now nf hc
    simp [Nat.not_le.mpr this]

/-- A concrete cron task: fire at 10:30 UTC every day. -/
def cronExampleTask : RmmTask :=
  { task_id := "c1", name := "nightly", trigger_type := "cron",
    scheduled_at := none, interval_seconds := none,
    cron_expression := "30 10 * * *", event_trigger := "",
    last_run := none, cancelled := false,
    script_type := "powershell", script_body := "echo hi" }

/-- Witness for C1: even at the exact scheduled instant 10:30:00 UTC
(day 14 of the epoch), with `last_run` unset, the task is not due. -/
theorem cron_task_never_due_witness :
    taskIsDue cronExampleTask (14 * 86400 + 10 * 3600 + 30 * 60) = false :=
  cron_task_never_due cronExampleTask (14 * 86400 + 10 * 3600 + 30 * 60) rfl

/-- Content of the on-disk task cache file of the agent as `json.loads` sees
it: a well-formed array of task records, corrupt (any exception inside
`load_tasks`), or absent. -/
inductive CacheFile where
  | valid (ts : List RmmTask)
  | corrupt
  | absent
deriving DecidableEq, Repr

/-- Path of `TASKS_FILE` (windows_agent.py line 29). -/
def tasksFilePath : String := "C:/ProgramData/SovereignRMM/scheduled_tasks.json"

/-- A filesystem mutation performed by the task store.  `writeTasks`
models `Path.write_text` of a serialised task list; `rename` models an
`os.replace` / rename. -/
inductive FsOp where
  | writeTasks (path : String) (ts : List RmmTask)
  | rename (src dst : String)
deriving DecidableEq, Repr

/-- Model of `load_tasks` (windows_agent.py lines 153-155): parse the file,
returning `[]` on any failure. -/
def load_tasks : CacheFile → List RmmTask
  | .valid ts => ts
  | .corrupt => []
  | .absent => []

/-- Filesystem mutations performed by `load_tasks`: none — the bare
`except` returns `[]` without touching the file, so a corrupt cache is
never renamed aside. -/
def loadTasksFsOps : CacheFile → List FsOp := fun _ => []

/-- Filesystem mutations performed by `save_tasks` (windows_agent.py
lines 157-158): a single direct `TASKS_FILE.write_text(...)`, with no
temporary file and no rename. -/
def saveTasksOps (ts : List RmmTask) : List FsOp :=
  [FsOp.writeTasks tasksFilePath ts]

/-- Effect of one filesystem operation on a path-indexed file store. -/
def applyFsOp (op : FsOp) (fs : String → CacheFile) : String → CacheFile :=
  match op with
  | .writeTasks p ts => fun q => if q = p then CacheFile.valid ts else fs q
  | .rename src dst => fun q =>
      if q = dst then fs src else if q = src then CacheFile.absent else fs q

def applyFsOps (ops : List FsOp) (fs : String → CacheFile) : String → CacheFile :=
  ops.foldl (fun f op => applyFsOp op f) fs

/-- An atomic whole-file replacement in the sense of the specification:
write the content to a temporary path, then rename it over the target. -/
def IsAtomicReplace (ops : List FsOp) (path : String) : Prop :=
  ∃ tmp ts, tmp ≠ path ∧ ops = [FsOp.writeTasks tmp ts, FsOp.rename tmp path]

/-- Model of `add_or_update_task` (windows_agent.py lines 160-164): drop every
record with the incoming task_id, then append the incoming record. -/
def add_or_update_task (t : RmmTask) (tasks : List RmmTask) : List RmmTask :=
  (tasks.filter (fun u => u.task_id ≠ t.task_id)) ++ [t]

/-- Model of `remove_task` (windows_agent.py lines 166-168). -/
def remove_task (task_id : String) (tasks : List RmmTask) : List RmmTask :=
  tasks.filter (fun t => t.task_id ≠ task_id)

/-- Model of `cancel_task_local` (windows_agent.py lines 170-175): set
`cancelled=true` on every record with the given task_id. -/
def cancel_task_local (task_id : String) (tasks : List RmmTask) : List RmmTask :=
  tasks.map (fun t => if t.task_id = task_id then { t with cancelled := true } else t)

/-- The post-run `last_run` update of `local_task_runner` (windows_agent.py
lines 430-434): reload the cache and stamp `last_run` on every record
with the given task_id. -/
def record_last_run (task_id : String) (now : Nat) (tasks : List RmmTask) : List RmmTask :=
  tasks.map (fun t => if t.task_id = task_id then { t with last_run := some now } else t)

/-- The task_ids the runner will consider on its next pass
(windows_agent.py line 412): records whose `cancelled` flag is unset. -/
def runnableIds (tasks : List RmmTask) : List String :=
  (tasks.filter (fun t => !t.cancelled)).map (fun t => t.task_id)

/-- One cache mutation the agent can perform on its local task store:
`upsert` is `add_or_update_task` (a `schedule_task` message or a check-in
snapshot entry), `cancel` is `cancel_task_local` (a `cancel_task` message
or a pre-run-check hit), `remove` is `remove_task`, `recordRun` is the
post-run `last_run` stamp of the runner. -/
inductive CacheOp where
  | upsert (t : RmmTask)
  | cancel (task_id : String)
  | remove (task_id : String)
  | recordRun (task_id : String) (now : Nat)
deriving DecidableEq, Repr

def applyCacheOp (tasks : List RmmTask) : CacheOp → List RmmTask
  | .upsert t => add_or_update_task t tasks
  | .cancel tid => cancel_task_local tid tasks
  | .remove tid => remove_task tid tasks
  | .recordRun tid now => record_last_run tid now tasks

def applyCacheOps (tasks : List RmmTask) (ops : List CacheOp) : List RmmTask :=
  ops.foldl applyCacheOp tasks

/-- Outcome of the pre-run `GET /api/dashboard/tasks/{task_id}` probe:
an HTTP response with a status code and the `cancelled` field of its JSON
body, or a connection-level failure (timeout, refused). -/
inductive ProbeOutcome where
  | resp (status : Nat) (cancelled : Bool)
  | connFail
deriving DecidableEq, Repr

/-- Model of `check_task_still_active` (windows_agent.py lines 364-375): a 200
response says active iff its `cancelled` field is false; any other status
and any exception fall open to `true` (run anyway). -/
def check_task_still_active : ProbeOutcome → Bool
  | .resp status cancelled => if status = 200 then !cancelled else true
  | .connFail => true

/-- An observable action of one `local_task_runner` pass. -/
inductive RunnerAction where
  | check (task_id : String)
  | markCancelled (task_id : String)
  | execute (task_id : String)
deriving DecidableEq, Repr

/-- The task_id an action refers to. -/
def RunnerAction.tid : RunnerAction → String
  | .check t => t
  | .markCancelled t => t
  | .execute t => t

/-- Handling of a single due-candidate task inside one pass of
`local_task_runner` (windows_agent.py lines 408-437), threading the
on-disk cache and an action trace.  For a due `once`/`cron`/`interval`
task the server probe runs first; a cancelled verdict marks the task
cancelled locally and skips it, otherwise the task is executed and the
cache is updated (`remove_task` for `once`, `last_run` stamp for the
rest).  A due task of any other trigger (`now`) is executed without a
probe. -/
def runnerHandleTask (resp : String → ProbeOutcome) (now : Nat)
    (acc : List RmmTask × List RunnerAction) (t : RmmTask) :
    List RmmTask × List RunnerAction :=
  if ¬ taskIsDue t now then acc
  else if t.trigger_type = "once" ∨ t.trigger_type = "cron" ∨ t.trigger_type = "interval" then
    if ¬ check_task_still_active (resp t.task_id) then
      (cancel_task_local t.task_id acc.1,
       acc.2 ++ [RunnerAction.check t.task_id, RunnerAction.markCancelled t.task_id])
    else
      ((if t.trigger_type = "once" then remove_task t.task_id acc.1
        else record_last_run t.task_id now acc.1),
       acc.2 ++ [RunnerAction.check t.task_id, RunnerAction.execute t.task_id])
  else
    ((if t.trigger_type = "once" then remove_task t.task_id acc.1
      else record_last_run t.task_id now acc.1),
     acc.2 ++ [RunnerAction.execute t.task_id])

/-- One full pass of `local_task_runner`: snapshot the non-cancelled
records, then handle each in store order, threading the cache. -/
def runnerPass (resp : String → ProbeOutcome) (tasks : List RmmTask) (now : Nat) :
    List RmmTask × List RunnerAction :=
  (tasks.filter (fun t => !t.cancelled)).foldl (runnerHandleTask resp now) (tasks, [])

/-- Observed behaviour of one task subprocess: how long it ran (seconds;
`asyncio.wait_for(proc.wait(), timeout=300)` raises iff this exceeds
300), the stdout lines streamed before it ended or was killed, the stderr
lines captured, and its native exit code on completion.  Characters stand
for the decoded bytes of each line. -/
structure ProcRun where
  duration : Nat
  stdoutLines : List (List Char)
  stderrLines : List (List Char)
  exitCode : Int
deriving DecidableEq, Repr

/-- The timeout notice `execute_task` appends to the stderr buffer. -/
def timeoutNoticeChars : List Char := "Task timed out after 300s".toList

/-- The `task_result` payload built by `execute_task` (windows_agent.py
lines 304-307). -/
structure TaskResultMsg where
  task_id : String
  exit_code : Int
  stdout : List Char
  stderr : List Char
deriving DecidableEq, Repr

/-- The stderr buffer as it stands when the result is assembled: on
timeout the notice has been appended (windows_agent.py line 300). -/
def execStderrBuf (run : ProcRun) : List (List Char) :=
  if 300 < run.duration then run.stderrLines ++ [timeoutNoticeChars] else run.stderrLines

/-- Model of `execute_task` (windows_agent.py lines 255-320) for a spawned
subprocess, returning the `task_result` payload and whether the process
was killed.  On timeout (`run.duration > 300`) the process is killed,
the exit code is −1 and the notice is in the buffer; otherwise the native
exit code is reported.  In both cases `stdout` is
`"".join(stdout_buf)[:65535]` and `stderr` is
`"".join(stderr_buf)[:16383]` — truncation keeps the head.  The generic
`except` branch for a failed spawn (exit −1, exception text appended) is
not modelled; no claim concerns it. -/
def execute_task (t : RmmTask) (run : ProcRun) : TaskResultMsg × Bool :=
  if 300 < run.duration then
    ({ task_id := t.task_id, exit_code := -1,
       stdout := (run.stdoutLines.flatten).take 65535,
       stderr := ((execStderrBuf run).flatten).take 16383 }, true)
  else
    ({ task_id := t.task_id, exit_code := run.exitCode,
       stdout := (run.stdoutLines.flatten).take 65535,
       stderr := ((execStderrBuf run).flatten).take 16383 }, false)

/-- Dispatch arm taken by the channel `receive` loop of the agent
(windows_agent.py lines 495-513) for an inbound message type. -/
inductive ReceiveAction where
  | runTask
  | scheduleTask
  | cancelTask
  | updatePolicy
  | diskScanRequest
  | ignored
deriving DecidableEq, Repr

def receiveDispatch (msgType : String) : ReceiveAction :=
  if msgType = "run_task" then ReceiveAction.runTask
  else if msgType = "schedule_task" then ReceiveAction.scheduleTask
  else if msgType = "cancel_task" then ReceiveAction.cancelTask
  else if msgType = "update_policy" then ReceiveAction.updatePolicy
  else if msgType = "disk_scan_request" then ReceiveAction.diskScanRequest
  else ReceiveAction.ignored

/-- Dispatch arm of `handle_ws_message_v2` (windows_agent.py lines
767-795), the extended v2 handler.  It is defined in the module but no
call site exists: the `receive` loop never invokes it. -/
inductive V2Action where
  | sendProcessList
  | sendKillResult
  | runQuickAction
  | postSoftwareReport
  | postHwReport
  | noAction
deriving DecidableEq, Repr

def handle_ws_message_v2 (msgType : String) : V2Action :=
  if msgType = "get_processes" then V2Action.sendProcessList
  else if msgType = "kill_process" then V2Action.sendKillResult
  else if msgType = "quick_action" then V2Action.runQuickAction
  else if msgType = "software_scan" then V2Action.postSoftwareReport
  else if msgType = "hw_scan_request" then V2Action.postHwReport
  else V2Action.noAction

/-- The persisted `state.json` blob of the agent, with the fields the channel
loop touches.  A missing key reads as `""` / `false`
(`state_get` default). -/
structure AgentState where
  device_id : String
  active_ip : String
  last_ip_test : String
  was_offline : Bool
deriving DecidableEq, Repr

/-- The `except` branch of `ws_loop` (windows_agent.py lines 515-519):
clear `last_ip_test` in the persisted state, then wait the returned
number of seconds before reprobing and reconnecting.  No other state key
is written — in particular `was_offline` is left as it was. -/
def wsLoopOnError (s : AgentState) : AgentState × Nat :=
  ({ s with last_ip_test := "" }, 30)

/-- The on-open step of `ws_loop` (windows_agent.py lines 487-489): when
the persisted state records `was_offline`, emit the reconnected
notification (the returned flag) and clear it. -/
def wsLoopOnOpen (s : AgentState) : AgentState × Bool :=
  if s.was_offline then ({ s with was_offline := false }, true) else (s, false)

/-- A device row as `offline_detection_loop` reads and writes it. -/
structure DeviceRow where
  id : String
  status : String
  last_seen : Nat
deriving DecidableEq, Repr

/-- One tick of `offline_detection_loop` (backend/main.py lines 669-684):
`UPDATE devices SET status=offline WHERE last_seen < now - 5 min`.
The update is unconditional on the current status and never consults the
`agent_connections` registry. -/
def offlineDetectionStep (devices : List DeviceRow) (now : Nat) : List DeviceRow :=
  devices.map (fun d =>
    if d.last_seen < now - 300 then { d with status := "offline" } else d)

/-- Device ids with a live agent channel in `agent_connections`
(backend/main.py line 32), for the concrete scenarios below. -/
def liveRegistryExample : List String := ["d1"]

/-- C3: the channel receive loop of the agent ignores all five v2 message
types — its dispatch has arms only for `run_task`, `schedule_task`,
`cancel_task`, `update_policy` and `disk_scan_request` — while the never-
invoked `handle_ws_message_v2` would have handled them (shown for
`get_processes`).  A `get_processes`, `kill_process`, `quick_action`,
`software_scan` or `hw_scan_request` message therefore triggers no
collector and no reply. -/
theorem v2_message_types_ignored :
    receiveDispatch "get_processes" = ReceiveAction.ignored ∧
    receiveDispatch "kill_process" = ReceiveAction.ignored ∧
    receiveDispatch "quick_action" = ReceiveAction.ignored ∧
    receiveDispatch "software_scan" = ReceiveAction.ignored ∧
    receiveDispatch "hw_scan_request" = ReceiveAction.ignored ∧
    handle_ws_message_v2 "get_processes" = V2Action.sendProcessList := by
  decide

/-- A concrete persisted agent state with the offline flag unset, as on
any agent that has not had the flag written (no code path ever writes
`was_offline=true`). -/
def agentStateExample : AgentState :=
  { device_id := "dev-1", active_ip := "10.0.0.1",
    last_ip_test := "2026-01-01T00:00:00", was_offline := false }

/-- C6: on a channel error the agent clears `last_ip_test` (forcing
endpoint reselection) and waits 30 s — these parts of the claim hold —
but it does not record `was_offline=true`: the flag is unchanged, so the
subsequent successful open emits no reconnected notification. -/
theorem ws_error_keeps_was_offline_unset :
    (wsLoopOnError agentStateExample).1.last_ip_test = "" ∧
    (wsLoopOnError agentStateExample).2 = 30 ∧
    (wsLoopOnError agentStateExample).1.was_offline = false ∧
    (wsLoopOnOpen (wsLoopOnError agentStateExample).1).2 = false :=
  ⟨rfl, rfl, rfl, rfl⟩

/-- Counterexample to C2: device `d1` has a live channel (it is in the
connection registry) yet the offline-detection tick transitions it to
`offline`, because the UPDATE of the loop filters only on `last_seen` and
never consults the registry. -/
theorem offline_loop_transitions_registered_device :
    "d1" ∈ liveRegistryExample ∧
    offlineDetectionStep
        [{ id := "d1", status := "online", last_seen := 0 }] 1000 =
      [{ id := "d1", status := "offline", last_seen := 0 }] := by
  decide

/-- C2 amended: one offline-detection tick transitions to `offline`
exactly the devices whose `last_seen` is older than `now` minus five
minutes, regardless of their current status and of registry membership;
every other device row is left unchanged. -/
theorem offline_step_characterization (devices : List DeviceRow) (now : Nat)
    (d : DeviceRow) (hd : d ∈ devices) :
    (d.last_seen < now - 300 →
      { d with status := "offline" } ∈ offlineDetectionStep devices now) ∧
    (¬ d.last_seen < now - 300 → d ∈ offlineDetectionStep devices now) := by
  constructor
  · intro h
    have hm := List.mem_map_of_mem
      (fun d : DeviceRow =>
        if d.last_seen < now - 300 then { d with status := "offline" } else d) hd
    simpa [offlineDetectionStep, h] using hm
  · intro h
    have hm := List.mem_map_of_mem
      (fun d : DeviceRow =>
        if d.last_seen < now - 300 then { d with status := "offline" } else d) hd
    simpa [offlineDetectionStep, h] using hm

/-- Witness for the amended C2: a stale device row is transitioned. -/
theorem offline_step_characterization_witness :
    ({ id := "d2", status := "online", last_seen := 100 } : DeviceRow) ∈
        offlineDetectionStep [{ id := "d2", status := "online", last_seen := 100 }] 2000 ∨
    ({ id := "d2", status := "offline", last_seen := 100 } : DeviceRow) ∈
        offlineDetectionStep [{ id := "d2", status := "online", last_seen := 100 }] 2000 :=
  Or.inr
    ((offline_step_characterization
        [{ id := "d2", status := "online", last_seen := 100 }] 2000
        { id := "d2", status := "online", last_seen := 100 } (by decide)).1 (by decide))

/-- Counterexample to C4: the write performed by `save_tasks` is a single
direct `write_text` of the cache path — not an atomic write-to-temp-then-
rename — and loading a corrupt cache performs no filesystem operation at
all, so the corrupt file is not renamed aside (though the empty-list
result does hold). -/
theorem save_not_atomic_and_corrupt_not_renamed :
    ¬ IsAtomicReplace (saveTasksOps []) tasksFilePath ∧
    load_tasks CacheFile.corrupt = [] ∧
    loadTasksFsOps CacheFile.corrupt = [] := by
  refine ⟨?_, rfl, rfl⟩
  rintro ⟨tmp, ts, hne, heq⟩
  simp [saveTasksOps] at heq

/-- C4 amended: a save is one direct whole-file write of the cache path;
it leaves every other path untouched (so nothing is preserved aside), and
a subsequent load returns exactly what was saved — even when the previous
content was corrupt, which is thereby overwritten without a backup.  A
corrupt cache loads as the empty list with no filesystem mutation. -/
theorem task_cache_store_semantics (fs : String → CacheFile) (ts : List RmmTask)
    (p : String) (hp : p ≠ tasksFilePath) :
    load_tasks (applyFsOps (saveTasksOps ts) fs tasksFilePath) = ts ∧
    applyFsOps (saveTasksOps ts) fs p = fs p ∧
    load_tasks CacheFile.corrupt = [] ∧
    loadTasksFsOps CacheFile.corrupt = [] := by
  refine ⟨?_, ?_, rfl, rfl⟩
  · simp [applyFsOps, saveTasksOps, applyFsOp, load_tasks]
  · simp [applyFsOps, saveTasksOps, applyFsOp, hp]

/-- A filesystem whose task-cache file is corrupt. -/
def corruptFsExample : String → CacheFile :=
  fun q => if q = tasksFilePath then CacheFile.corrupt else CacheFile.absent

/-- Witness for the amended C4: saving over a corrupt cache file makes it
load as the saved list, and the path `C:/other` is untouched. -/
theorem task_cache_store_semantics_witness :
    load_tasks (applyFsOps (saveTasksOps [cronExampleTask]) corruptFsExample tasksFilePath) =
      [cronExampleTask] ∧
    applyFsOps (saveTasksOps [cronExampleTask]) corruptFsExample "C:/other" =
      corruptFsExample "C:/other" ∧
    load_tasks CacheFile.corrupt = [] ∧
    loadTasksFsOps CacheFile.corrupt = [] :=
  task_cache_store_semantics corruptFsExample [cronExampleTask] "C:/other" (by decide)

/-- Every cache record carrying the given task_id has its cancelled flag
set. -/
def CancelledForever (tid : String) (tasks : List RmmTask) : Prop :=
  ∀ t ∈ tasks, t.task_id = tid → t.cancelled = true

/-- One cache operation preserves the all-cancelled invariant, provided
it is not an upsert of a record with the protected task_id. -/
theorem cancelledForever_applyOp (tid : String) (tasks : List RmmTask) (op : CacheOp)
    (hinv : CancelledForever tid tasks)
    (hop : ∀ t, op = CacheOp.upsert t → t.task_id ≠ tid) :
    CancelledForever tid (applyCacheOp tasks op) := by
  cases op with
  | upsert t =>
    intro u hu hut
    simp only [applyCacheOp, add_or_update_task] at hu
    rcases List.mem_append.mp hu with h1 | h1
    · exact hinv u (List.mem_of_mem_filter h1) hut
    · rw [List.mem_singleton.mp h1] at hut
      exact absurd hut (hop t rfl)
  | cancel c =>
    intro u hu hut
    simp only [applyCacheOp, cancel_task_local] at hu
    rcases List.mem_map.mp hu with ⟨v, hv, hvu⟩
    by_cases hvc : v.task_id = c
    · rw [if_pos hvc] at hvu
      rw [← hvu]
    · rw [if_neg hvc] at hvu
      rw [← hvu] at hut ⊢
      exact hinv v hv hut
  | remove r =>
    intro u hu hut
    exact hinv u (List.mem_of_mem_filter hu) hut
  | recordRun r n =>
    intro u hu hut
    simp only [applyCacheOp, record_last_run] at hu
    rcases List.mem_map.mp hu with ⟨v, hv, hvu⟩
    by_cases hvc : v.task_id = r
    · rw [if_pos hvc] at hvu
      rw [← hvu] at hut ⊢
      exact hinv v hv hut
    · rw [if_neg hvc] at hvu
      rw [← hvu] at hut ⊢
      exact hinv v hv hut

/-- A sequence of cache operations without an upsert of the protected
task_id preserves the all-cancelled invariant. -/
theorem cancelledForever_applyOps (tid : String) (tasks : List RmmTask) (ops : List CacheOp)
    (hinv : CancelledForever tid tasks)
    (hops : ∀ t, CacheOp.upsert t ∈ ops → t.task_id ≠ tid) :
    CancelledForever tid (applyCacheOps tasks ops) := by
  induction ops generalizing tasks with
  | nil => exact hinv
  | cons op rest ih =>
    simp only [applyCacheOps, List.foldl_cons]
    exact ih (applyCacheOp tasks op)
      (cancelledForever_applyOp tid tasks op hinv
        (fun t h => hops t (by rw [h]; exact List.mem_cons_self _ _)))
      (fun t h => hops t (List.mem_cons_of_mem _ h))

/-- An all-cancelled task_id is not on the candidate list of the runner. -/
theorem not_runnable_of_cancelledForever (tid : String) (tasks : List RmmTask)
    (h : CancelledForever tid tasks) : tid ∉ runnableIds tasks := by
  intro hmem
  rcases List.mem_map.mp hmem with ⟨t, ht, htid⟩
  have h1 := List.mem_of_mem_filter ht
  have h2 := List.of_mem_filter ht
  rw [h t h1 htid] at h2
  simp at h2

/-- Each action appended by `runnerHandleTask` refers to the handled
task. -/
theorem runnerHandleTask_trace_tid (resp : String → ProbeOutcome) (now : Nat)
    (acc : List RmmTask × List RunnerAction) (t : RmmTask) (a : RunnerAction)
    (ha : a ∈ (runnerHandleTask resp now acc t).2) :
    a ∈ acc.2 ∨ a.tid = t.task_id := by
  unfold runnerHandleTask at ha
  split at ha
  · exact Or.inl ha
  · split at ha
    · split at ha
      · rcases List.mem_append.mp ha with h | h
        · exact Or.inl h
        · right
          simp only [List.mem_cons, List.not_mem_nil, or_false] at h
          rcases h with h | h <;> (rw [h]; rfl)
      · rcases List.mem_append.mp ha with h | h
        · exact Or.inl h
        · right
          simp only [List.mem_cons, List.not_mem_nil, or_false] at h
          rcases h with h | h <;> (rw [h]; rfl)
    · rcases List.mem_append.mp ha with h | h
      · exact Or.inl h
      · right
        simp only [List.mem_cons, List.not_mem_nil, or_false] at h
        rw [h]
        rfl

/-- Every action traced by a runner fold refers to some task of the
iterated list. -/
theorem runnerFold_trace_tid (resp : String → ProbeOutcome) (now : Nat)
    (l : List RmmTask) :
    ∀ (acc : List RmmTask × List RunnerAction) (a : RunnerAction),
      a ∈ (l.foldl (runnerHandleTask resp now) acc).2 →
      a ∈ acc.2 ∨ a.tid ∈ l.map RmmTask.task_id := by
  induction l with
  | nil => exact fun acc a ha => Or.inl ha
  | cons t rest ih =>
    intro acc a ha
    simp only [List.foldl_cons] at ha
    rcases ih (runnerHandleTask resp now acc t) a ha with h | h
    · rcases runnerHandleTask_trace_tid resp now acc t a h with h' | h'
      · exact Or.inl h'
      · right
        simp [h']
    · right
      simp [h]

/-- Every task a runner pass executes (or probes) is on the runnable
candidate list of the cache it started from. -/
theorem runnerPass_trace_runnable (resp : String → ProbeOutcome)
    (tasks : List RmmTask) (now : Nat) (a : RunnerAction)
    (h : a ∈ (runnerPass resp tasks now).2) : a.tid ∈ runnableIds tasks := by
  unfold runnerPass at h
  rcases runnerFold_trace_tid resp now (tasks.filter (fun t => !t.cancelled)) (tasks, []) a h with h' | h'
  · cases h'
  · exact h'

/-- A cached task whose cancelled flag is set. -/
def cancelledTaskExample : RmmTask :=
  { task_id := "t9", name := "job", trigger_type := "once",
    scheduled_at := some 0, interval_seconds := none,
    cron_expression := "", event_trigger := "",
    last_run := none, cancelled := true,
    script_type := "cmd", script_body := "echo hi" }

/-- A fresh record for the same task_id, as delivered by a later
`schedule_task` message, with the cancelled flag unset. -/
def rescheduledTaskExample : RmmTask :=
  { task_id := "t9", name := "job", trigger_type := "now",
    scheduled_at := none, interval_seconds := none,
    cron_expression := "", event_trigger := "",
    last_run := none, cancelled := false,
    script_type := "cmd", script_body := "echo hi" }

/-- A cached record with an unrelated task_id. -/
def otherTaskExample : RmmTask :=
  { task_id := "other", name := "misc", trigger_type := "now",
    scheduled_at := none, interval_seconds := none,
    cron_expression := "", event_trigger := "",
    last_run := none, cancelled := false,
    script_type := "cmd", script_body := "echo hi" }

/-- Counterexample to C5: `cancelled=true` is recorded for `t9`, yet one
`schedule_task` message for the same task_id (an
`add_or_update_task` upsert) replaces the record wholesale and the task
is runnable again. -/
theorem cancelled_task_resurrected_by_schedule :
    CancelledForever "t9" [cancelledTaskExample] ∧
    "t9" ∈ runnableIds
      (applyCacheOps [cancelledTaskExample] [CacheOp.upsert rescheduledTaskExample]) := by
  constructor
  · intro t ht htid
    rw [List.mem_singleton.mp ht]
    rfl
  · decide

/-- C5 amended: once `cancelled=true` is recorded for a task_id, it stays
recorded — and the task is neither runnable nor ever executed by a runner
pass — under every sequence of agent cache operations except an upsert
(a `schedule_task` message or check-in snapshot entry) carrying that same
task_id, which replaces the record and can clear the flag. -/
theorem cancelled_terminal_without_same_id_upsert (tid : String)
    (tasks : List RmmTask) (ops : List CacheOp)
    (hinv : CancelledForever tid tasks)
    (hops : ∀ t, CacheOp.upsert t ∈ ops → t.task_id ≠ tid) :
    CancelledForever tid (applyCacheOps tasks ops) ∧
    tid ∉ runnableIds (applyCacheOps tasks ops) ∧
    ∀ (resp : String → ProbeOutcome) (now : Nat),
      RunnerAction.execute tid ∉ (runnerPass resp (applyCacheOps tasks ops) now).2 := by
  have hall := cancelledForever_applyOps tid tasks ops hinv hops
  refine ⟨hall, not_runnable_of_cancelledForever tid _ hall, ?_⟩
  intro resp now hexec
  exact not_runnable_of_cancelledForever tid _ hall
    (runnerPass_trace_runnable resp _ now _ hexec)

/-- Cache operations that leave `t9` cancelled: a repeated cancel, an
upsert of an unrelated task, a `last_run` stamp and a removal of an
unrelated id. -/
def witnessOpsExample : List CacheOp :=
  [CacheOp.cancel "t9", CacheOp.upsert otherTaskExample,
   CacheOp.recordRun "t9" 50, CacheOp.remove "zz"]

/-- Witness for the amended C5: after the operation sequence, `t9` is not
runnable and no runner pass executes it. -/
theorem cancelled_terminal_without_same_id_upsert_witness :
    "t9" ∉ runnableIds (applyCacheOps [cancelledTaskExample] witnessOpsExample) ∧
    RunnerAction.execute "t9" ∉
      (runnerPass (fun _ => ProbeOutcome.connFail)
        (applyCacheOps [cancelledTaskExample] witnessOpsExample) 100).2 := by
  have hinv : CancelledForever "t9" [cancelledTaskExample] := by
    intro t ht htid
    rw [List.mem_singleton.mp ht]
    rfl
  have hops : ∀ t, CacheOp.upsert t ∈ witnessOpsExample → t.task_id ≠ "t9" := by
    intro t ht
    simp only [witnessOpsExample, List.mem_cons, List.not_mem_nil, or_false] at ht
    rcases ht with h1 | h1 | h1 | h1
    · simp at h1
    · injection h1 with h2
      rw [h2]
      decide
    · simp at h1
    · simp at h1
  have h := cancelled_terminal_without_same_id_upsert "t9" [cancelledTaskExample]
    witnessOpsExample hinv hops
  exact ⟨h.2.1, h.2.2 (fun _ => ProbeOutcome.connFail) 100⟩

/-- A one-shot task scheduled for instant 1000. -/
def onceTaskExample : RmmTask :=
  { task_id := "t1", name := "demo", trigger_type := "once",
    scheduled_at := some 1000, interval_seconds := none,
    cron_expression := "", event_trigger := "",
    last_run := none, cancelled := false,
    script_type := "cmd", script_body := "echo hi" }

/-- A server that answers every task-active probe with 200 and
`cancelled=false`. -/
def probeAllActive : String → ProbeOutcome := fun _ => ProbeOutcome.resp 200 false

/-- Counterexample to the timing part of C7: five minutes (300 s) before the fire
time of a one-shot task the runner performs no probe at all (the pass
trace is empty), and the probe happens in the very pass that executes the
task — at fire time, not five minutes early. -/
theorem precheck_runs_at_fire_time_not_before :
    (runnerPass probeAllActive [onceTaskExample] 700).2 = [] ∧
    (runnerPass probeAllActive [onceTaskExample] 1000).2 =
      [RunnerAction.check "t1", RunnerAction.execute "t1"] := by
  decide

/-- C7 amended: for every due non-`now` task (trigger once/cron/interval)
the runner probes the task-active endpoint in the same pass — immediately
before firing, not five minutes early.  A 200 response carrying
`cancelled=true` makes it mark the task cancelled in the local cache and
skip the execution; a connection failure falls open and the task is
executed. -/
theorem precheck_semantics (resp : String → ProbeOutcome) (tasks : List RmmTask)
    (t : RmmTask) (now : Nat)
    (hdue : taskIsDue t now = true)
    (htrig : t.trigger_type = "once" ∨ t.trigger_type = "cron" ∨ t.trigger_type = "interval") :
    RunnerAction.check t.task_id ∈ (runnerHandleTask resp now (tasks, []) t).2 ∧
    (resp t.task_id = ProbeOutcome.resp 200 true →
      RunnerAction.markCancelled t.task_id ∈ (runnerHandleTask resp now (tasks, []) t).2 ∧
      RunnerAction.execute t.task_id ∉ (runnerHandleTask resp now (tasks, []) t).2 ∧
      ∀ u ∈ tasks, u.task_id = t.task_id →
        { u with cancelled := true } ∈ (runnerHandleTask resp now (tasks, []) t).1) ∧
    (resp t.task_id = ProbeOutcome.connFail →
      RunnerAction.execute t.task_id ∈ (runnerHandleTask resp now (tasks, []) t).2) := by
  refine ⟨?_, ?_, ?_⟩
  · unfold runnerHandleTask
    rw [if_neg (by simp [hdue]), if_pos htrig]
    by_cases hc : check_task_still_active (resp t.task_id) = true
    · rw [if_neg (not_not_intro hc)]
      simp
    · rw [if_pos hc]
      simp
  · intro hresp
    have hc : check_task_still_active (resp t.task_id) = false := by
      rw [hresp]
      rfl
    unfold runnerHandleTask
    rw [if_neg (by simp [hdue]), if_pos htrig, if_pos (by simp [hc])]
    refine ⟨by simp, by simp, ?_⟩
    intro u hu hut
    have hm := List.mem_map_of_mem
      (fun v : RmmTask => if v.task_id = t.task_id then { v with cancelled := true } else v) hu
    simpa [cancel_task_local, hut] using hm
  · intro hresp
    have hc : check_task_still_active (resp t.task_id) = true := by
      rw [hresp]
      rfl
    unfold runnerHandleTask
    rw [if_neg (by simp [hdue]), if_pos htrig, if_neg (by simp [hc])]
    simp

/-- A server whose task-active probe answers 200 with `cancelled=true`. -/
def probeSaysCancelled : String → ProbeOutcome := fun _ => ProbeOutcome.resp 200 true

/-- Witness for the amended C7: at fire time the runner probes, marks the
task cancelled on a `cancelled=true` verdict, and does not execute it. -/
theorem precheck_semantics_witness :
    RunnerAction.check "t1" ∈
      (runnerHandleTask probeSaysCancelled 1000 ([onceTaskExample], []) onceTaskExample).2 ∧
    RunnerAction.markCancelled "t1" ∈
      (runnerHandleTask probeSaysCancelled 1000 ([onceTaskExample], []) onceTaskExample).2 ∧
    RunnerAction.execute "t1" ∉
      (runnerHandleTask probeSaysCancelled 1000 ([onceTaskExample], []) onceTaskExample).2 := by
  have h := precheck_semantics probeSaysCancelled [onceTaskExample] onceTaskExample 1000
    (by decide) (Or.inl rfl)
  exact ⟨h.1, (h.2.1 rfl).1, (h.2.1 rfl).2.1⟩

/-- C10: when a due task passes the pre-run probe, the runner executes
it; if its trigger is `once` the record is removed from the cache
entirely — no record with that task_id remains, and no later runner pass
(any probe behaviour, any time) executes that task_id again from this
cache — while for every other trigger the record is retained with only
its `last_run` field set to the completion instant, all other records
being untouched. -/
theorem once_task_removed_and_not_rerun (resp : String → ProbeOutcome)
    (tasks : List RmmTask) (t : RmmTask) (now : Nat)
    (hdue : taskIsDue t now = true)
    (hact : check_task_still_active (resp t.task_id) = true) :
    RunnerAction.execute t.task_id ∈ (runnerHandleTask resp now (tasks, []) t).2 ∧
    (t.trigger_type = "once" →
      (∀ u ∈ (runnerHandleTask resp now (tasks, []) t).1, u.task_id ≠ t.task_id) ∧
      ∀ (resp2 : String → ProbeOutcome) (now2 : Nat),
        RunnerAction.execute t.task_id ∉
          (runnerPass resp2 (runnerHandleTask resp now (tasks, []) t).1 now2).2) ∧
    (t.trigger_type ≠ "once" →
      ∀ u ∈ tasks,
        (u.task_id = t.task_id →
          { u with last_run := some now } ∈ (runnerHandleTask resp now (tasks, []) t).1) ∧
        (u.task_id ≠ t.task_id → u ∈ (runnerHandleTask resp now (tasks, []) t).1)) := by
  by_cases htrig : t.trigger_type = "once" ∨ t.trigger_type = "cron" ∨ t.trigger_type = "interval"
  · have hstep : runnerHandleTask resp now (tasks, []) t =
        ((if t.trigger_type = "once" then remove_task t.task_id tasks
          else record_last_run t.task_id now tasks),
         [RunnerAction.check t.task_id, RunnerAction.execute t.task_id]) := by
      unfold runnerHandleTask
      rw [if_neg (by simp [hdue]), if_pos htrig, if_neg (by simp [hact])]
      simp
    rw [hstep]
    refine ⟨by simp, ?_, ?_⟩
    · intro h1
      rw [if_pos h1]
      constructor
      · intro u hu
        have h2 := (List.mem_filter.mp hu).2
        simpa using h2
      · intro resp2 now2 hex
        have h3 := runnerPass_trace_runnable resp2 _ now2 _ hex
        rcases List.mem_map.mp h3 with ⟨v, hv, hvid⟩
        have hv1 := List.mem_of_mem_filter hv
        have hv2 := (List.mem_filter.mp hv1).2
        simp at hv2
        exact hv2 hvid
    · intro hne u hu
      rw [if_neg hne]
      constructor
      · intro hut
        have hm := List.mem_map_of_mem
          (fun v : RmmTask =>
            if v.task_id = t.task_id then { v with last_run := some now } else v) hu
        simpa [record_last_run, hut] using hm
      · intro hut
        have hm := List.mem_map_of_mem
          (fun v : RmmTask =>
            if v.task_id = t.task_id then { v with last_run := some now } else v) hu
        simpa [record_last_run, hut] using hm
  · have hstep : runnerHandleTask resp now (tasks, []) t =
        ((if t.trigger_type = "once" then remove_task t.task_id tasks
          else record_last_run t.task_id now tasks),
         [RunnerAction.execute t.task_id]) := by
      unfold runnerHandleTask
      rw [if_neg (by simp [hdue]), if_neg htrig]
      simp
    rw [hstep]
    refine ⟨by simp, ?_, ?_⟩
    · intro h1
      exact absurd (Or.inl h1) htrig
    · intro hne u hu
      rw [if_neg hne]
      constructor
      · intro hut
        have hm := List.mem_map_of_mem
          (fun v : RmmTask =>
            if v.task_id = t.task_id then { v with last_run := some now } else v) hu
        simpa [record_last_run, hut] using hm
      · intro hut
        have hm := List.mem_map_of_mem
          (fun v : RmmTask =>
            if v.task_id = t.task_id then { v with last_run := some now } else v) hu
        simpa [record_last_run, hut] using hm

/-- Witness for C10: the due one-shot task is executed at 1000, and a
later pass at 2000 over the updated cache does not execute it again. -/
theorem once_task_removed_and_not_rerun_witness :
    RunnerAction.execute "t1" ∈
      (runnerHandleTask probeAllActive 1000 ([onceTaskExample], []) onceTaskExample).2 ∧
    RunnerAction.execute "t1" ∉
      (runnerPass probeAllActive
        (runnerHandleTask probeAllActive 1000 ([onceTaskExample], []) onceTaskExample).1 2000).2 := by
  have h := once_task_removed_and_not_rerun probeAllActive [onceTaskExample]
    onceTaskExample 1000 (by decide) (by decide)
  exact ⟨h.1, (h.2.1 rfl).2 probeAllActive 2000⟩

/-- C8: a task subprocess still running at the 300 s mark (duration
beyond 300 s) is killed; the reported exit code is −1, the captured
stderr buffer contains the timeout notice, and for a task that produced
no stderr of its own the reported stderr field is exactly the notice. -/
theorem timeout_kills_with_exit_neg_one (t : RmmTask) (run : ProcRun)
    (h : 300 < run.duration) :
    (execute_task t run).2 = true ∧
    (execute_task t run).1.exit_code = -1 ∧
    timeoutNoticeChars ∈ execStderrBuf run ∧
    (run.stderrLines = [] → (execute_task t run).1.stderr = timeoutNoticeChars) := by
  refine ⟨?_, ?_, ?_, ?_⟩
  · simp [execute_task, h]
  · simp [execute_task, h]
  · simp [execStderrBuf, h]
  · intro he
    simp only [execute_task, if_pos h, execStderrBuf, he, List.nil_append]
    simp only [List.flatten_cons, List.flatten_nil, List.append_nil]
    exact List.take_of_length_le (by decide)

/-- A subprocess that blocks for 301 s with no output. -/
def blockedRunExample : ProcRun :=
  { duration := 301, stdoutLines := [], stderrLines := [], exitCode := 0 }

/-- Witness for C8: the 301 s run is killed with exit −1 and its reported
stderr is the timeout notice. -/
theorem timeout_kills_with_exit_neg_one_witness :
    (execute_task onceTaskExample blockedRunExample).2 = true ∧
    (execute_task onceTaskExample blockedRunExample).1.exit_code = -1 ∧
    timeoutNoticeChars ∈ execStderrBuf blockedRunExample ∧
    (execute_task onceTaskExample blockedRunExample).1.stderr = timeoutNoticeChars := by
  have h := timeout_kills_with_exit_neg_one onceTaskExample blockedRunExample (by decide)
  exact ⟨h.1, h.2.1, h.2.2.1, h.2.2.2 rfl⟩

/-- The last element of a nonempty replicate is the replicated value. -/
theorem getLast?_replicate_succ (n : Nat) (a : Char) :
    (List.replicate (n + 1) a).getLast? = some a := by
  rw [List.replicate_succ', List.getLast?_append_cons]
  rfl

/-- A run whose single stdout line is 65535 copies of `a` followed by one
`b`: one character longer than the stdout bound. -/
def longRunExample : ProcRun :=
  { duration := 10,
    stdoutLines := [List.replicate 65535 'a' ++ ['b']],
    stderrLines := [], exitCode := 0 }

/-- The stdout field produced for `longRunExample` is the 65535-character
head, all copies of `a`. -/
theorem longRunExample_stdout :
    (execute_task onceTaskExample longRunExample).1.stdout = List.replicate 65535 'a' := by
  show ((longRunExample.stdoutLines.flatten).take 65535) = List.replicate 65535 'a'
  show ((List.flatten [List.replicate 65535 'a' ++ ['b']]).take 65535) = List.replicate 65535 'a'
  rw [List.flatten_cons, List.flatten_nil, List.append_nil]
  have := List.take_left (List.replicate 65535 'a') ['b']
  rwa [List.length_replicate] at this

/-- Counterexample to C9: the persisted stdout field is not a tail of the
captured output.  For a task emitting 65535 copies of `a` then one `b`,
the field keeps the head (all copies of `a`) and drops the final `b`, so
it is no suffix of the output — `stdout[:65535]` truncates from the
front, not the back. -/
theorem stdout_field_not_a_tail :
    ¬ ((execute_task onceTaskExample longRunExample).1.stdout <:+
        longRunExample.stdoutLines.flatten) := by
  rw [longRunExample_stdout]
  intro hsuf
  have hfl : longRunExample.stdoutLines.flatten = List.replicate 65535 'a' ++ ['b'] := by
    show List.flatten [List.replicate 65535 'a' ++ ['b']] = List.replicate 65535 'a' ++ ['b']
    rw [List.flatten_cons, List.flatten_nil, List.append_nil]
  rw [hfl] at hsuf
  rcases hsuf with ⟨u, hu⟩
  have hne : (List.replicate 65535 'a') ≠ [] := by
    intro hcon
    have hlen := congrArg List.length hcon
    rw [List.length_replicate] at hlen
    simp at hlen
  have h1 : (u ++ List.replicate 65535 'a').getLast? = some 'a' := by
    rw [List.getLast?_append_of_ne_nil u hne,
      (by norm_num : (65535 : Nat) = 65534 + 1), getLast?_replicate_succ]
  have h2 : (List.replicate 65535 'a' ++ ['b']).getLast? = some 'b' := by
    rw [List.getLast?_append_cons]
    rfl
  rw [hu, h2] at h1
  exact absurd (Option.some.inj h1) (by decide)

/-- C9 amended: the stdout field of a task_result is the captured head
(a prefix, not a tail) of the joined stdout stream, of length at most
65535 — exactly 65535 when the task emitted 1,000,000 characters — and
the stderr field is the head of the captured stderr buffer, of length at
most 16383. -/
theorem output_fields_are_bounded_heads (t : RmmTask) (run : ProcRun) :
    ((execute_task t run).1.stdout <+: run.stdoutLines.flatten) ∧
    (execute_task t run).1.stdout.length ≤ 65535 ∧
    (run.stdoutLines.flatten.length = 1000000 →
      (execute_task t run).1.stdout.length = 65535) ∧
    ((execute_task t run).1.stderr <+: (execStderrBuf run).flatten) ∧
    (execute_task t run).1.stderr.length ≤ 16383 := by
  have hst : (execute_task t run).1.stdout = (run.stdoutLines.flatten).take 65535 := by
    unfold execute_task
    split <;> rfl
  have hse : (execute_task t run).1.stderr = ((execStderrBuf run).flatten).take 16383 := by
    unfold execute_task
    split <;> rfl
  refine ⟨?_, ?_, ?_, ?_, ?_⟩
  · rw [hst]
    exact List.take_prefix _ _
  · rw [hst, List.length_take]
    exact min_le_left _ _
  · intro hlen
    rw [hst, List.length_take, hlen]
    omega
  · rw [hse]
    exact List.take_prefix _ _
  · rw [hse, List.length_take]
    exact min_le_left _ _

/-- A run emitting 1,000,000 characters on stdout. -/
def millionRunExample : ProcRun :=
  { duration := 5, stdoutLines := [List.replicate 1000000 'a'],
    stderrLines := [], exitCode := 0 }

/-- Witness for the amended C9: the million-character run persists a
stdout field of length exactly 65535. -/
theorem output_fields_are_bounded_heads_witness :
    (execute_task onceTaskExample millionRunExample).1.stdout.length = 65535 :=
  (output_fields_are_bounded_heads onceTaskExample millionRunExample).2.2.1
    (by
      show (List.flatten [List.replicate 1000000 'a']).length = 1000000
      rw [List.flatten_cons, List.flatten_nil, List.append_nil, List.length_replicate])
